import Mathlib

/-!
Verification of the langsplain educational transformer visualizer.

The repository's numeric core (`modules/attention-demo.js` and siblings) is
embedded shallowly below.  Scalars are modelled as rationals; the three
transcendental scalar functions the code uses (exp inside softmax, the GELU
activation, and the reciprocal square root inside layer normalization) are
parameters of the embedding, gathered in the `Numerics` structure, so every
definition stays computable.  Properties about softmax normalization are
proved for an arbitrary positive `exp`, which covers the real exponential.

The files `modules/math-utils.js` and `modules/tokenizer.js` are imported by
the attention demo but are not part of the source tree; the definitions that
stand in for them are modelled from the specification and carry a
`Modelled from the spec:` doc comment.
-/

namespace Langsplain

/-- Transcendental scalar functions abstracted out of the embedding.  `exp`
models `Math.exp`, `gelu` the scalar GELU activation, `rsqrt` the reciprocal
square root used by layer normalization. -/
structure Numerics where
  exp : ℚ → ℚ
  gelu : ℚ → ℚ
  rsqrt : ℚ → ℚ

/-! ### Math kernel (`modules/math-utils.js`, absent from src/) -/

/-- Modelled from the spec: dot product of two dense vectors. -/
def dot (a b : List ℚ) : ℚ := (List.zipWith (· * ·) a b).sum

/-- Modelled from the spec: `matvec(matrixTransposed, vector)` — one dot
product per matrix row. -/
def matvec (m : List (List ℚ)) (v : List ℚ) : List ℚ := m.map (fun row => dot row v)

/-- Modelled from the spec: standard dense transpose. -/
def transposeMat (m : List (List ℚ)) : List (List ℚ) :=
  (List.range (m.headD []).length).map (fun j => m.map (fun row => row.getD j 0))

/-- Modelled from the spec: elementwise vector addition. -/
def vadd (a b : List ℚ) : List ℚ := List.zipWith (· + ·) a b

/-- Modelled from the spec: elementwise GELU activation. -/
def geluVec (nm : Numerics) (v : List ℚ) : List ℚ := v.map nm.gelu

/-- Mean of a vector (used by layer normalization). -/
def meanQ (v : List ℚ) : ℚ := v.sum / (v.length : ℚ)

/-- Modelled from the spec: `layerNorm(vector)` normalizes to zero mean and
unit variance (no learned scale/shift); the reciprocal square root of the
variance is taken through `Numerics.rsqrt`. -/
def layerNorm (nm : Numerics) (v : List ℚ) : List ℚ :=
  let m := meanQ v
  let variance := (v.map (fun x => (x - m) ^ 2)).sum / (v.length : ℚ)
  v.map (fun x => (x - m) * nm.rsqrt (variance + 1 / 100000))

/-- Modelled from the spec: `applyCausalMask(scores)` sets entry `[i][j]` for
`j > i` to negative infinity.  The IEEE `-Infinity` sentinel is modelled as
`none`; surviving finite entries are `some`. -/
def applyCausalMask (scores : List (List ℚ)) : List (List (Option ℚ)) :=
  scores.enum.map (fun p => p.2.enum.map (fun q => if q.1 > p.1 then none else some q.2))

/-- Finite (unmasked) entries of a masked score row. -/
def finiteVals (row : List (Option ℚ)) : List ℚ := row.filterMap id

/-- Maximum over the finite entries of a masked row, as computed by
`Math.max(...row)` on a row whose masked entries are `-Infinity`. -/
def rowMax (row : List (Option ℚ)) : ℚ :=
  (finiteVals row).foldl max ((finiteVals row).headD 0)

/-- Modelled from the spec: the numerically stable softmax (subtract the max
before exponentiating) applied to a causally masked row.  A masked entry
(`none`, i.e. `-Infinity`) exponentiates to exactly 0. -/
def softmaxMasked (nm : Numerics) (row : List (Option ℚ)) : List ℚ :=
  let m := rowMax row
  let es := row.map (fun o => match o with
    | none => (0 : ℚ)
    | some x => nm.exp (x - m))
  es.map (fun e => e / es.sum)

/-- One step of the linear congruential generator behind `randomMatrix`. -/
def lcg (s : ℕ) : ℕ := (1664525 * s + 1013904223) % 4294967296

/-- `n`-fold iteration of the generator from a seed. -/
def lcgIter (seed n : ℕ) : ℕ := lcg^[n] seed

/-- Modelled from the spec: `randomMatrix(rows, cols, seed)` — seeded
linear-congruential pseudo-random matrix; the same seed always yields the
same matrix.  Entries lie in `[-1/2, 1/2)`. -/
def randomMatrix (rows cols seed : ℕ) : List (List ℚ) :=
  (List.range rows).map (fun i =>
    (List.range cols).map (fun j =>
      ((lcgIter seed (i * cols + j + 1) : ℚ) / 4294967296) - 1 / 2))

/-! ### Tokenizer / embedding provider (`modules/tokenizer.js`, absent from src/) -/

/-- A token record `{ text, id, position }` as produced by the tokenizer. -/
structure Token where
  text : String
  id : ℕ
  position : ℕ
deriving DecidableEq, Repr

/-- Modelled from the spec: vocabulary size of the small fixed vocabulary. -/
def vocabSize : ℕ := 1000

/-- Modelled from the spec: the tokenizer lowercases token text for lookup
purposes; the exact id assignment is not specified, so any deterministic
function of the lowercased text into the vocabulary is faithful. -/
def vocabId (s : String) : ℕ :=
  s.toLower.data.foldl (fun a c => (a * 31 + c.toNat) % vocabSize) 7

/-- Modelled from the spec: split a character stream on whitespace and
punctuation boundaries; alphanumeric runs become word tokens, each
punctuation character becomes its own token, whitespace is dropped.  The
accumulator holds the current word's characters in reverse. -/
def scanTokens : List Char → List Char → List String
  | [], acc => if acc = [] then [] else [String.mk acc.reverse]
  | c :: rest, acc =>
    if c.isWhitespace then
      (if acc = [] then [] else [String.mk acc.reverse]) ++ scanTokens rest []
    else if c.isAlphanum then
      scanTokens rest (c :: acc)
    else
      (if acc = [] then [] else [String.mk acc.reverse]) ++
        [String.mk [c]] ++ scanTokens rest []

/-- Modelled from the spec: `tokenize(text)` splits on whitespace/punctuation
boundaries, preserves display text, and assigns sequential positions starting
at 0. -/
def tokenize (text : String) : List Token :=
  (scanTokens text.data []).enum.map (fun p => ⟨p.2, vocabId p.2, p.1⟩)

/-- Embedding dimension (`CONFIG.embedDim`). -/
def embedDim : ℕ := 64

/-- Modelled from the spec: the pseudo-random token embedding table, generated
once from a fixed seed. -/
def tokenTable : List (List ℚ) := randomMatrix vocabSize embedDim 42

/-- Modelled from the spec: the pseudo-random positional encoding table,
generated once from a fixed seed. -/
def positionalTable : List (List ℚ) := randomMatrix 32 embedDim 4242

/-- Modelled from the spec: `getEmbeddings(tokens)` returns one vector per
token, `tokenTable[tokenId] + positionalTable[position]`. -/
def getEmbeddings (tokens : List Token) : List (List ℚ) :=
  tokens.map (fun t => vadd (tokenTable.getD t.id []) (positionalTable.getD t.position []))

/-! ### Attention simulator (`modules/attention-demo.js`) -/

/-- `CONFIG.numLayers`. -/
def numLayers : ℕ := 3

/-- `CONFIG.numHeads`. -/
def numHeads : ℕ := 4

/-- `CONFIG.headDim` (`embedDim / numHeads`). -/
def headDim : ℕ := 16

/-- `CONFIG.ffnDim` (4x expansion). -/
def ffnDim : ℕ := 256

/-- Per-layer attention weights: per-head `Wq`/`Wk`/`Wv` projections and the
output projection `Wo`. -/
structure AttnWeights where
  Wq : List (List (List ℚ))
  Wk : List (List (List ℚ))
  Wv : List (List (List ℚ))
  Wo : List (List ℚ)

/-- Per-layer feed-forward weights. -/
structure FFNWeights where
  W1 : List (List ℚ)
  W2 : List (List ℚ)

/-- Weights of one transformer layer. -/
structure LayerWeights where
  attention : AttnWeights
  ffn : FFNWeights

instance : Inhabited AttnWeights := ⟨⟨[], [], [], []⟩⟩

instance : Inhabited FFNWeights := ⟨⟨[], []⟩⟩

instance : Inhabited LayerWeights := ⟨⟨default, default⟩⟩

/-- The weight tables built for layer `l` by `initWeights`, including the
head-specific projections pushed in the inner loop. -/
def mkLayerWeights (l : ℕ) : LayerWeights :=
  { attention :=
      { Wq := (List.range numHeads).map (fun h =>
          randomMatrix embedDim headDim (l * 1000 + h * 100 + 1))
        Wk := (List.range numHeads).map (fun h =>
          randomMatrix embedDim headDim (l * 1000 + h * 100 + 2))
        Wv := (List.range numHeads).map (fun h =>
          randomMatrix embedDim headDim (l * 1000 + h * 100 + 3))
        Wo := randomMatrix embedDim embedDim (l * 1000 + 400) }
    ffn :=
      { W1 := randomMatrix embedDim ffnDim (l * 1000 + 500)
        W2 := randomMatrix ffnDim embedDim (l * 1000 + 600) } }

/-- The full weight table `weights.layers` built by `initWeights` on its
first (effective) call. -/
def buildWeights : List LayerWeights := (List.range numLayers).map mkLayerWeights

/-- `initWeights` as a transformer of the module-level `weights` cell:
`if (weights) return;` makes a second call keep the tables already built. -/
def initWeights : Option (List LayerWeights) → Option (List LayerWeights)
  | some w => some w
  | none => some buildWeights

/-- Result of `computeHeadAttention` for one head. -/
structure HeadResult where
  Q : List (List ℚ)
  K : List (List ℚ)
  V : List (List ℚ)
  scores : List (List ℚ)
  weights : List (List ℚ)
  output : List (List ℚ)

instance : Inhabited HeadResult := ⟨⟨[], [], [], [], [], []⟩⟩

/-- `computeHeadAttention(embeddings, Wq, Wk, Wv)`: project to Q/K/V, compute
scaled dot-product scores (`scale = Math.sqrt(16) = 4`, exact in IEEE),
causally mask, softmax each row, and accumulate the head output with the
source's `out[k] += weights[i][j] * V[j][k]` loop. -/
def computeHeadAttention (nm : Numerics) (embeddings : List (List ℚ))
    (Wq Wk Wv : List (List ℚ)) : HeadResult :=
  let seqLen := embeddings.length
  let Q := embeddings.map (fun e => matvec (transposeMat Wq) e)
  let K := embeddings.map (fun e => matvec (transposeMat Wk) e)
  let V := embeddings.map (fun e => matvec (transposeMat Wv) e)
  let scale : ℚ := 4
  let scores := (List.range seqLen).map (fun i =>
    (List.range seqLen).map (fun j =>
      ((List.range headDim).map (fun k =>
        (Q.getD i []).getD k 0 * (K.getD j []).getD k 0)).sum / scale))
  let attentionWeights := (applyCausalMask scores).map (fun row => softmaxMasked nm row)
  let output := (List.range seqLen).map (fun i =>
    (List.range seqLen).foldl (fun out j =>
      (List.range headDim).map (fun k =>
        out.getD k 0 + (attentionWeights.getD i []).getD j 0 * (V.getD j []).getD k 0))
      (List.replicate headDim 0))
  ⟨Q, K, V, scores, attentionWeights, output⟩

/-- Result of `runMultiHeadAttention` for one layer. -/
structure AttnLayerResult where
  headResults : List HeadResult
  attentionOutput : List (List ℚ)
  afterAttention : List (List ℚ)

instance : Inhabited AttnLayerResult := ⟨⟨[], [], []⟩⟩

/-- `runMultiHeadAttention(embeddings, layerIdx)`: run every head, concatenate
the heads' outputs per token, project through `Wo`, then residual-add and
layer-norm.  The module-level `weights` cell is replaced by the pure
`buildWeights` table, justified by the idempotence of `initWeights`. -/
def runMultiHeadAttention (nm : Numerics) (embeddings : List (List ℚ))
    (layerIdx : ℕ) : AttnLayerResult :=
  let layer := buildWeights.getD layerIdx default
  let headResults := (List.range numHeads).map (fun h =>
    computeHeadAttention nm embeddings
      (layer.attention.Wq.getD h []) (layer.attention.Wk.getD h [])
      (layer.attention.Wv.getD h []))
  let seqLen := embeddings.length
  let concatenated := (List.range seqLen).map (fun i =>
    (headResults.map (fun hr => hr.output.getD i [])).flatten)
  let attentionOutput := concatenated.map (fun c => matvec (transposeMat layer.attention.Wo) c)
  let afterAttention := embeddings.enum.map (fun p =>
    layerNorm nm (vadd p.2 (attentionOutput.getD p.1 [])))
  ⟨headResults, attentionOutput, afterAttention⟩

/-- Result of `runFFN` for one layer. -/
structure FFNResult where
  ffnOutput : List (List ℚ)
  afterFFN : List (List ℚ)

instance : Inhabited FFNResult := ⟨⟨[], []⟩⟩

/-- `runFFN(embeddings, layerIdx)`: first linear + GELU, second linear, then
residual-add and layer-norm. -/
def runFFN (nm : Numerics) (embeddings : List (List ℚ)) (layerIdx : ℕ) : FFNResult :=
  let layer := buildWeights.getD layerIdx default
  let ffnOutput := embeddings.map (fun e =>
    matvec (transposeMat layer.ffn.W2) (geluVec nm (matvec (transposeMat layer.ffn.W1) e)))
  let afterFFN := embeddings.enum.map (fun p =>
    layerNorm nm (vadd p.2 (ffnOutput.getD p.1 [])))
  ⟨ffnOutput, afterFFN⟩

/-- One entry of `layerResults` collected by `runAttentionDemo`. -/
structure LayerResult where
  layer : ℕ
  inputEmbeddings : List (List ℚ)
  attention : AttnLayerResult
  ffn : FFNResult
  outputEmbeddings : List (List ℚ)

instance : Inhabited LayerResult := ⟨⟨0, [], default, default, []⟩⟩

/-- The layer loop of `runAttentionDemo`: run attention then the FFN, record
the layer's results, and feed the layer's output embeddings to the next
layer.  First argument: remaining layer count; second: current layer index. -/
def runLayersAux (nm : Numerics) : ℕ → ℕ → List (List ℚ) → List LayerResult
  | 0, _, _ => []
  | count + 1, l, embeddings =>
    let attentionResult := runMultiHeadAttention nm embeddings l
    let ffnResult := runFFN nm attentionResult.afterAttention l
    { layer := l
      inputEmbeddings := embeddings
      attention := attentionResult
      ffn := ffnResult
      outputEmbeddings := ffnResult.afterFFN } :: runLayersAux nm count (l + 1) ffnResult.afterFFN

/-- The value returned by a successful `runAttentionDemo` call. -/
structure DemoResult where
  tokens : List Token
  layerResults : List LayerResult

/-- `runAttentionDemo(text)`: tokenize, truncate to at most 10 tokens,
short-circuit to `null` (here `none`) on an empty tokenization, otherwise run
the full forward pass. -/
def runAttentionDemo (nm : Numerics) (text : String) : Option DemoResult :=
  let tokens := (tokenize text).take 10
  if tokens = [] then none
  else some ⟨tokens, runLayersAux nm numLayers 0 (getEmbeddings tokens)⟩

/-- `getAttentionWeights(result, layerIdx, headIdx)`.  A JavaScript `TypeError`
(reading `.weights` of `undefined` when `headIdx` is out of range) is
modelled as `Except.error`; a returned value (possibly `null`) as
`Except.ok`. -/
def getAttentionWeights (result : Option DemoResult) (layerIdx headIdx : ℕ) :
    Except Unit (Option (List (List ℚ))) :=
  match result with
  | none => .ok none
  | some r =>
    match r.layerResults[layerIdx]? with
    | none => .ok none
    | some lr =>
      match lr.attention.headResults[headIdx]? with
      | none => .error ()
      | some hr => .ok (some hr.weights)

/-- The slice of `AttentionDemoUI` state that the `run()` handler touches:
the current input text, the stored `this.result`, and the results last
rendered into the DOM (token display, arcs, heatmap). -/
structure AttentionUIState where
  inputText : String
  result : Option DemoResult
  displayed : Option DemoResult

/-- JavaScript's `String.prototype.trim`: strip whitespace from both ends. -/
def jsTrim (s : String) : String :=
  String.mk ((s.data.dropWhile Char.isWhitespace).reverse.dropWhile Char.isWhitespace).reverse

/-- `AttentionDemoUI.run()`: trim the input, abort on empty text, store the
demo result, and abort before rendering when the run returned `null` —
leaving the previously rendered results in place. -/
def uiRun (nm : Numerics) (st : AttentionUIState) : AttentionUIState :=
  let text := jsTrim st.inputText
  if text = "" then st
  else
    match runAttentionDemo nm text with
    | none => { st with result := none }
    | some r => { st with result := some r, displayed := some r }

/-! ### KV cache demo (`KVCacheDemoUI`) -/

/-- `CONFIG.kvDim` of the KV cache demo. -/
def kvDim : ℕ := 6

/-- `CONFIG.maxTokens` of the KV cache demo. -/
def kvMaxTokens : ℕ := 8

/-- The sample tokens generated by the demo. -/
def SAMPLE_TOKENS : List String :=
  ["The", "cat", "sat", "on", "the", "warm", "soft", "mat"]

/-- One side of `this.stats`. -/
structure KVStats where
  kComputations : ℕ
  vComputations : ℕ
  attentionOps : ℕ
deriving DecidableEq, Repr

/-- The state of `KVCacheDemoUI` touched by `generateNextToken`.  The cache
rows themselves are filled with `Math.random()` display values; only their
count is modelled (`cacheLen`). -/
structure KVState where
  currentStep : ℕ
  generatedTokens : List String
  cacheLen : ℕ
  withCache : KVStats
  withoutCache : KVStats
deriving DecidableEq, Repr

/-- The state after `reset()` (also the constructor's initial state). -/
def kvReset : KVState := ⟨0, [], 0, ⟨0, 0, 0⟩, ⟨0, 0, 0⟩⟩

/-- `generateNextToken()`: no-op once `maxTokens` is reached; otherwise push
the next sample token, add `kvDim` K (and V) computations with the cache,
`seqLen * kvDim` without, `seqLen` attention score ops on both sides, grow
the cache, and advance the step counter. -/
def generateNextToken (st : KVState) : KVState :=
  if st.currentStep ≥ kvMaxTokens then st
  else
    let seqLen := st.currentStep + 1
    { currentStep := st.currentStep + 1
      generatedTokens := st.generatedTokens ++ [SAMPLE_TOKENS.getD st.currentStep ""]
      cacheLen := st.cacheLen + 1
      withCache :=
        { kComputations := st.withCache.kComputations + kvDim
          vComputations := st.withCache.vComputations + kvDim
          attentionOps := st.withCache.attentionOps + seqLen }
      withoutCache :=
        { kComputations := st.withoutCache.kComputations + seqLen * kvDim
          vComputations := st.withoutCache.vComputations + seqLen * kvDim
          attentionOps := st.withoutCache.attentionOps + seqLen } }

/-- The percentage computed by `updateSavings()` from the combined K+V
totals of both sides (0 while nothing has been generated). -/
def savingsPercent (st : KVState) : ℚ :=
  let cachedTotal := st.withCache.kComputations + st.withCache.vComputations
  let uncachedTotal := st.withoutCache.kComputations + st.withoutCache.vComputations
  if uncachedTotal > 0 then
    ((uncachedTotal : ℚ) - (cachedTotal : ℚ)) / (uncachedTotal : ℚ) * 100
  else 0

/-! ### Guided tour (`Tour` in the tour module) -/

/-- One entry of `TOUR_STEPS`.  The display-only `title`/`content` strings
are omitted; the fields driving the state machine are kept. -/
structure TourStep where
  target : String
  componentKey : Option String
  highlightFlag : Bool
  action : Option String
  isFinal : Bool
deriving DecidableEq, Repr

instance : Inhabited TourStep := ⟨⟨"", none, false, none, false⟩⟩

/-- The fixed 10-step tour sequence. -/
def TOUR_STEPS : List TourStep :=
  [ ⟨"#input-box", some "input", false, none, false⟩,
    ⟨"#embedding-layer", some "embeddings", false, none, false⟩,
    ⟨"#attention-block", some "attention", true, none, false⟩,
    ⟨"#residual-1", some "residual1", false, none, false⟩,
    ⟨"#ffn-block", some "ffn", false, none, false⟩,
    ⟨"#transformer-block", none, false, none, false⟩,
    ⟨"#output-layer", some "outputProjection", false, none, false⟩,
    ⟨"#output-box", some "output", false, none, false⟩,
    ⟨"#ffn-block .toggle-indicator", some "moe", false, some "showMOE", false⟩,
    ⟨".demo-btn[data-demo=attention]", none, false, none, true⟩ ]

/-- The tour state: the step cursor, the `active` flag, the overlay/tooltip
`active` CSS classes, and the architecture diagram's highlight key as driven
by the tour's `highlightComponent`/`clearHighlight` calls. -/
structure TourState where
  currentStep : ℕ
  active : Bool
  overlayActive : Bool
  tooltipActive : Bool
  diagramHighlight : Option String
deriving DecidableEq, Repr

/-- `showStep(index)`: out-of-range indices are ignored; otherwise the cursor
moves and the step's `componentKey` is highlighted (or the highlight is
cleared when the step has none). -/
def showStep (st : TourState) (i : ℕ) : TourState :=
  if i < TOUR_STEPS.length then
    { st with
      currentStep := i
      diagramHighlight := (TOUR_STEPS.getD i default).componentKey }
  else st

/-- `start()`: activate, reset the cursor to 0, activate overlay and tooltip,
show step 0. -/
def tourStart (st : TourState) : TourState :=
  showStep { st with active := true, currentStep := 0,
                     overlayActive := true, tooltipActive := true } 0

/-- `complete()`: deactivate everything and clear the diagram highlight. -/
def tourComplete (st : TourState) : TourState :=
  { st with active := false, overlayActive := false, tooltipActive := false,
            diagramHighlight := none }

/-- `exit()`: same state effect as `complete()` (different callback). -/
def tourExit (st : TourState) : TourState :=
  { st with active := false, overlayActive := false, tooltipActive := false,
            diagramHighlight := none }

/-- `next()`: completes from the last step, otherwise advances. -/
def tourNext (st : TourState) : TourState :=
  if st.currentStep ≥ TOUR_STEPS.length - 1 then tourComplete st
  else showStep st (st.currentStep + 1)

/-- `prev()`: a no-op at step 0, otherwise steps back. -/
def tourPrev (st : TourState) : TourState :=
  if st.currentStep > 0 then showStep st (st.currentStep - 1) else st

/-! ### Diagram renderers (`modules/diagram.js`, the training diagram module,
`modules/inference-diagram.js`).  The SVG surface is modelled by: a `svg`
presence flag, and `glow` — the key of the component whose `.box-bg` element
currently carries the glow filter (at most one, since highlighting always
removes the previous glow first).  Display-only descriptor fields (labels,
positions, colors, `infoKey`) are omitted. -/

/-- The descriptor fields of a diagram component that drive behavior. -/
structure DiagComp where
  id : String
  hidden : Bool
  isContainer : Bool
  isSmall : Bool
  hasToggle : Bool
deriving DecidableEq, Repr

/-- Key lookup in a component table (`COMPONENTS[key]`). -/
def lookupComp (cs : List (String × DiagComp)) (k : String) : Option DiagComp :=
  (cs.find? (fun p => p.1 == k)).map (fun p => p.2)

/-- The architecture diagram's `COMPONENTS` table. -/
def archComponents : List (String × DiagComp) :=
  [ ("input", ⟨"input-box", false, false, false, false⟩),
    ("embeddings", ⟨"embedding-layer", false, false, false, false⟩),
    ("transformerBlock", ⟨"transformer-block", false, true, false, false⟩),
    ("attention", ⟨"attention-block", false, false, false, false⟩),
    ("residual1", ⟨"residual-1", false, false, true, false⟩),
    ("ffn", ⟨"ffn-block", false, false, false, true⟩),
    ("moe", ⟨"moe-block", true, false, false, false⟩),
    ("residual2", ⟨"residual-2", false, false, true, false⟩),
    ("outputProjection", ⟨"output-layer", false, false, false, false⟩),
    ("output", ⟨"output-box", false, false, false, false⟩) ]

/-- The architecture diagram's `ARROWS` table. -/
def archArrows : List (String × String) :=
  [ ("input", "embeddings"), ("embeddings", "attention"),
    ("attention", "residual1"), ("residual1", "ffn"),
    ("ffn", "residual2"), ("residual2", "outputProjection"),
    ("outputProjection", "output") ]

/-- The static `hidden` flag consulted by `renderArrows`. -/
def archHidden (k : String) : Bool :=
  match lookupComp archComponents k with
  | some c => c.hidden
  | none => false

/-- The arrows actually drawn by `renderArrows`: an arrow is skipped when
either endpoint component is hidden. -/
def archDrawnArrows : List (String × String) :=
  archArrows.filter (fun a => !(archHidden a.1 || archHidden a.2))

/-- Whether `svg.select(id + " .box-bg")` finds a rectangle for this key:
containers are rendered without a `.box-bg`, every other component in the
table (including the statically hidden `moe`) is rendered as a box. -/
def archIsBox (k : String) : Bool :=
  match lookupComp archComponents k with
  | some c => !c.isContainer
  | none => false

/-- Runtime state of the architecture diagram renderer. -/
structure ArchState where
  svg : Bool
  glow : Option String
  currentHighlight : Option String
  moeMode : Bool
  ffnGroupHidden : Bool
  moeGroupHidden : Bool
  toggleText : String
  resizeListener : Bool
deriving DecidableEq, Repr

/-- `applyMOEVisualState()`: show the MOE group and hide the FFN group (or
vice versa) and re-label the toggle; a no-op when there is no svg. -/
def archApplyMOEVisualState (st : ArchState) : ArchState :=
  if !st.svg then st
  else if st.moeMode then
    { st with ffnGroupHidden := true, moeGroupHidden := false, toggleText := "← FFN" }
  else
    { st with moeGroupHidden := true, ffnGroupHidden := false, toggleText := "→ MOE" }

/-- `toggleMOE()`: flip the mode flag and apply the visual state. -/
def archToggleMOE (st : ArchState) : ArchState :=
  archApplyMOEVisualState { st with moeMode := !st.moeMode }

/-- The effect of a fresh `renderDiagram` pass on the modelled visual state:
all elements are recreated without the glow filter, the `moe` group carries
its static `hidden` class, and the toggle shows its rendered label. -/
def archRenderPass (st : ArchState) : ArchState :=
  { st with glow := none, ffnGroupHidden := false, moeGroupHidden := true,
            toggleText := "→ MOE" }

/-- The second half of `highlightComponent(key)` run with no previous
highlight and the svg present: record the key and glow its box (an empty
`.box-bg` selection, e.g. for a container, changes nothing). -/
def archApplyHighlight (st : ArchState) (k : String) : ArchState :=
  { st with currentHighlight := some k
            glow := if archIsBox k then some k else st.glow }

/-- `highlightComponent(key)` of the architecture diagram (no svg guard in
this variant): remove the previous highlight's glow, record the new key,
apply the glow if the key names a component.  Touching the null svg throws,
modelled as `Except.error`. -/
def archHighlight (st : ArchState) (key : String) : Except Unit ArchState :=
  match st.currentHighlight with
  | some prev =>
    if (lookupComp archComponents prev).isSome then
      if !st.svg then .error ()
      else
        let st1 := { st with glow := if st.glow == some prev then none else st.glow }
        if (lookupComp archComponents key).isSome then
          if !st1.svg then .error ()
          else .ok (archApplyHighlight st1 key)
        else .ok { st1 with currentHighlight := some key }
    else
      if (lookupComp archComponents key).isSome then
        if !st.svg then .error ()
        else .ok (archApplyHighlight st key)
      else .ok { st with currentHighlight := some key }
  | none =>
    if (lookupComp archComponents key).isSome then
      if !st.svg then .error ()
      else .ok (archApplyHighlight st key)
    else .ok { st with currentHighlight := some key }

/-- The body of the architecture diagram's resize handler (it runs only
while the diagram is initialized, so the svg is present): full redraw,
re-apply the MOE visual state, and — when a highlight was active on a known
component — re-apply that highlight. -/
def archResize (st : ArchState) : ArchState :=
  let st2 := archApplyMOEVisualState (archRenderPass st)
  match st.currentHighlight with
  | some k =>
    if (lookupComp archComponents k).isSome then archApplyHighlight st2 k else st2
  | none => st2

/-- `destroyDiagram()` of the architecture diagram: unregister the listener,
remove the svg with everything in it, clear highlight and mode state. -/
def archDestroy (st : ArchState) : ArchState :=
  { st with svg := false, glow := none, currentHighlight := none,
            moeMode := false, resizeListener := false }

/-- The training diagram's `COMPONENTS` table. -/
def trainComponents : List (String × DiagComp) :=
  [ ("trainingData", ⟨"training-data", false, false, false, false⟩),
    ("datasetPrep", ⟨"dataset-prep", false, false, false, false⟩),
    ("forwardPass", ⟨"forward-pass", false, false, false, false⟩),
    ("lossFunction", ⟨"loss-function", false, false, false, false⟩),
    ("backpropagation", ⟨"backpropagation", false, false, false, false⟩),
    ("optimizer", ⟨"optimizer", false, false, false, false⟩),
    ("sft", ⟨"sft", false, false, false, false⟩),
    ("preferenceTuning", ⟨"preference-tuning", false, false, false, false⟩) ]

/-- Runtime state of the training diagram renderer. -/
structure TrainState where
  svg : Bool
  glow : Option String
  currentHighlight : Option String
  resizeListener : Bool
deriving DecidableEq, Repr

/-- `highlightComponent(key)` of the training diagram (guarded by
`if (!svg) return`). -/
def trainHighlight (st : TrainState) (key : String) : TrainState :=
  if !st.svg then st
  else
    let st1 :=
      match st.currentHighlight with
      | some prev =>
        if (lookupComp trainComponents prev).isSome then
          { st with glow := if st.glow == some prev then none else st.glow }
        else st
      | none => st
    { st1 with currentHighlight := some key
               glow := if (lookupComp trainComponents key).isSome then some key
                       else st1.glow }

/-- The body of the training diagram's resize handler: full redraw, then
re-apply an active highlight on a known component. -/
def trainResize (st : TrainState) : TrainState :=
  let st1 := { st with glow := none }
  match st.currentHighlight with
  | some k =>
    if (lookupComp trainComponents k).isSome then
      { st1 with currentHighlight := some k, glow := some k }
    else st1
  | none => st1

/-- `destroyDiagram()` of the training diagram. -/
def trainDestroy (st : TrainState) : TrainState :=
  { st with svg := false, glow := none, currentHighlight := none,
            resizeListener := false }

/-- The inference diagram's `COMPONENTS` table (`autoregressiveLoop` is a
container rendered without a `.box-bg`). -/
def infComponents : List (String × DiagComp) :=
  [ ("inputPrompt", ⟨"input-prompt", false, false, false, false⟩),
    ("tokenize", ⟨"inference-tokenize", false, false, false, false⟩),
    ("prefillPhase", ⟨"prefill-phase", false, false, false, false⟩),
    ("autoregressiveLoop", ⟨"decode-loop", false, true, false, false⟩),
    ("logits", ⟨"decode-logits", false, false, false, false⟩),
    ("sampling", ⟨"decode-sampling", false, false, false, false⟩),
    ("stopCondition", ⟨"decode-stop", false, false, false, false⟩),
    ("kvCache", ⟨"kv-cache-box", false, false, false, false⟩),
    ("detokenize", ⟨"detokenize", false, false, false, false⟩) ]

/-- Whether the inference diagram renders a `.box-bg` for this key. -/
def infIsBox (k : String) : Bool :=
  match lookupComp infComponents k with
  | some c => !c.isContainer
  | none => false

/-- Runtime state of the inference diagram renderer. -/
structure InfState where
  svg : Bool
  glow : Option String
  currentHighlight : Option String
  resizeListener : Bool
deriving DecidableEq, Repr

/-- `highlightComponent(key)` of the inference diagram (guarded by
`if (!svg) return`). -/
def infHighlight (st : InfState) (key : String) : InfState :=
  if !st.svg then st
  else
    let st1 :=
      match st.currentHighlight with
      | some prev =>
        if (lookupComp infComponents prev).isSome then
          { st with glow := if st.glow == some prev then none else st.glow }
        else st
      | none => st
    { st1 with currentHighlight := some key
               glow := if (lookupComp infComponents key).isSome && infIsBox key
                       then some key else st1.glow }

/-- The body of the inference diagram's resize handler: recompute the layout
and fully redraw.  Unlike the architecture and training handlers it does not
re-apply an active highlight, so the redraw leaves every box unglowed while
`currentHighlight` still holds the key. -/
def infResize (st : InfState) : InfState :=
  { st with glow := none }

/-- `destroyDiagram()` of the inference diagram. -/
def infDestroy (st : InfState) : InfState :=
  { st with svg := false, glow := none, currentHighlight := none,
            resizeListener := false }

/-! ### Spec-side definitions (for the refinement claims, phrased from the
specification's formulas rather than from the source loops) -/

/-- The scale factor of the spec formula `S[i][j] = (Q[i]·K[j]) / sqrt(headDim)`:
`sqrt 16 = 4`, exact also in IEEE arithmetic. -/
def sqrtHeadDim : ℚ := 4

/-- From the spec: raw attention score `S[i][j] = (Q[i] · K[j]) / sqrt(headDim)`. -/
def specScore (Q K : List (List ℚ)) (i j : ℕ) : ℚ :=
  dot (Q.getD i []) (K.getD j []) / sqrtHeadDim

/-- From the spec: head output `O[i] = Σ_j A[i][j] · V[j]`, written
coordinatewise over the head dimension. -/
def specHeadOutput (A V : List (List ℚ)) (n i : ℕ) : List ℚ :=
  (List.range headDim).map (fun k =>
    ∑ j ∈ Finset.range n, (A.getD i []).getD j 0 * (V.getD j []).getD k 0)

/-! ### Helper lemmas -/

theorem getD_map_range {α : Type} (f : ℕ → α) {n i : ℕ} (d : α) (h : i < n) :
    ((List.range n).map f).getD i d = f i := by
  rw [List.getD_eq_getElem?_getD, List.getElem?_map, List.getElem?_range h]
  rfl

theorem getD_map_of_lt {α β : Type} (f : α → β) (l : List α) {i : ℕ} (d : β) (d' : α)
    (h : i < l.length) : (l.map f).getD i d = f (l.getD i d') := by
  rw [List.getD_eq_getElem?_getD, List.getElem?_map, List.getElem?_eq_getElem h,
    List.getD_eq_getElem?_getD, List.getElem?_eq_getElem h]
  rfl

theorem getD_enum_map_of_lt {α β : Type} (f : ℕ × α → β) (l : List α) {i : ℕ} (d : β) (d' : α)
    (h : i < l.length) : (l.enum.map f).getD i d = f (i, l.getD i d') := by
  have he : i < l.enum.length := by simpa using h
  rw [List.getD_eq_getElem?_getD, List.getElem?_map, List.getElem?_eq_getElem he]
  simp [List.getElem_enum, List.getD_eq_getElem?_getD, List.getElem?_eq_getElem h]

theorem sum_map_div (es : List ℚ) (s : ℚ) :
    (es.map (fun e => e / s)).sum = es.sum / s := by
  induction es with
  | nil => simp
  | cons a l ih => simp [ih, add_div]

theorem list_sum_eq_sum_range_getD (l : List ℚ) :
    l.sum = ∑ j ∈ Finset.range l.length, l.getD j 0 := by
  induction l with
  | nil => simp
  | cons a l ih =>
    rw [List.sum_cons, List.length_cons, Finset.sum_range_succ']
    simp only [List.getD_cons_succ, List.getD_cons_zero]
    rw [ih]
    ring

theorem sum_range_mul_getD (a b : List ℚ) (hab : a.length = b.length) :
    ((List.range a.length).map (fun k => a.getD k 0 * b.getD k 0)).sum = dot a b := by
  induction a generalizing b with
  | nil => simp [dot]
  | cons x xs ih =>
    cases b with
    | nil => simp at hab
    | cons y ys =>
      simp only [List.length_cons, Nat.add_right_cancel_iff] at hab
      simp only [List.length_cons]
      rw [List.range_succ_eq_map, List.map_cons, List.sum_cons, List.map_map]
      have hcomp : ((fun k => (x :: xs).getD k 0 * (y :: ys).getD k 0) ∘ Nat.succ) =
          fun k => xs.getD k 0 * ys.getD k 0 := by
        funext k
        simp [Function.comp, List.getD_cons_succ]
      rw [hcomp, ih ys hab]
      simp [dot]

theorem replicate_eq_map_range {α : Type} (d : ℕ) (a : α) :
    List.replicate d a = (List.range d).map (fun _ => a) := by
  induction d with
  | zero => simp
  | succ m ih =>
    rw [List.range_succ, List.map_append, List.replicate_succ', ih]
    simp

theorem foldl_accum (d : ℕ) (w : ℕ → ℚ) (v : ℕ → ℕ → ℚ) (m : ℕ) :
    (List.range m).foldl
      (fun out j => (List.range d).map (fun k => out.getD k 0 + w j * v j k))
      (List.replicate d 0) =
    (List.range d).map (fun k => ∑ j ∈ Finset.range m, w j * v j k) := by
  induction m with
  | zero =>
    rw [List.range_zero, List.foldl_nil, replicate_eq_map_range]
    simp
  | succ m ih =>
    rw [List.range_succ, List.foldl_append, ih]
    simp only [List.foldl_cons, List.foldl_nil]
    apply List.map_congr_left
    intro k hk
    have hkd : k < d := List.mem_range.mp hk
    rw [getD_map_range _ _ hkd, Finset.sum_range_succ]

theorem softmaxMasked_length (nm : Numerics) (row : List (Option ℚ)) :
    (softmaxMasked nm row).length = row.length := by
  simp [softmaxMasked]

theorem softmaxMasked_getD_masked (nm : Numerics) (row : List (Option ℚ)) (j : ℕ)
    (hj : row[j]? = some none) : (softmaxMasked nm row).getD j 0 = 0 := by
  simp only [softmaxMasked]
  rw [List.getD_eq_getElem?_getD, List.getElem?_map, List.getElem?_map, hj]
  simp

theorem softmaxMasked_sum_one (nm : Numerics) (hexp : ∀ x, 0 < nm.exp x)
    (row : List (Option ℚ)) (x : ℚ) (hx : some x ∈ row) :
    (softmaxMasked nm row).sum = 1 := by
  simp only [softmaxMasked]
  set es := row.map (fun o => match o with
    | none => (0 : ℚ)
    | some y => nm.exp (y - rowMax row)) with hes
  have h0 : ∀ e ∈ es, 0 ≤ e := by
    intro e he
    rw [hes] at he
    obtain ⟨o, _, rfl⟩ := List.mem_map.mp he
    cases o with
    | none => exact le_refl 0
    | some y => exact le_of_lt (hexp _)
  have hmem : nm.exp (x - rowMax row) ∈ es := by
    rw [hes]
    exact List.mem_map.mpr ⟨some x, hx, rfl⟩
  have hpos : 0 < es.sum := lt_of_lt_of_le (hexp _) (List.single_le_sum h0 _ hmem)
  rw [sum_map_div, div_self (ne_of_gt hpos)]

theorem maskRow_getElem (xs : List ℚ) (i j : ℕ) (hj : j < xs.length) :
    (xs.enum.map (fun q => if q.1 > i then none else some q.2))[j]? =
      some (if j > i then none else some (xs.getD j 0)) := by
  have hje : j < xs.enum.length := by simpa using hj
  rw [List.getElem?_map, List.getElem?_eq_getElem hje]
  simp [List.getElem_enum, List.getD_eq_getElem?_getD, List.getElem?_eq_getElem hj]

theorem computeHeadAttention_weights_spec (nm : Numerics) (hexp : ∀ x, 0 < nm.exp x)
    (embs : List (List ℚ)) (Wq Wk Wv : List (List ℚ)) :
    ((computeHeadAttention nm embs Wq Wk Wv).weights.length = embs.length) ∧
    (∀ i j, i < j →
      ((computeHeadAttention nm embs Wq Wk Wv).weights.getD i []).getD j 0 = 0) ∧
    (∀ i, i < embs.length →
      ((computeHeadAttention nm embs Wq Wk Wv).weights.getD i []).length = embs.length ∧
      ((computeHeadAttention nm embs Wq Wk Wv).weights.getD i []).sum = 1) := by
  set n := embs.length with hn
  have hW : (computeHeadAttention nm embs Wq Wk Wv).weights =
      (applyCausalMask ((List.range n).map (fun i =>
        (List.range n).map (fun j =>
          ((List.range headDim).map (fun k =>
            ((embs.map (fun e => matvec (transposeMat Wq) e)).getD i []).getD k 0 *
            ((embs.map (fun e => matvec (transposeMat Wk) e)).getD j []).getD k 0)).sum / 4)))).map
        (fun row => softmaxMasked nm row) := rfl
  set scores := (List.range n).map (fun i =>
    (List.range n).map (fun j =>
      ((List.range headDim).map (fun k =>
        ((embs.map (fun e => matvec (transposeMat Wq) e)).getD i []).getD k 0 *
        ((embs.map (fun e => matvec (transposeMat Wk) e)).getD j []).getD k 0)).sum / 4)) with hscores
  have hslen : scores.length = n := by rw [hscores]; simp
  have hmasklen : (applyCausalMask scores).length = n := by
    simp [applyCausalMask, hslen]
  have hAlen : (computeHeadAttention nm embs Wq Wk Wv).weights.length = n := by
    rw [hW]
    simp [hmasklen]
  have hrow : ∀ i, i < n →
      (computeHeadAttention nm embs Wq Wk Wv).weights.getD i [] =
      softmaxMasked nm ((scores.getD i []).enum.map
        (fun q => if q.1 > i then none else some q.2)) := by
    intro i hi
    rw [hW]
    have hi' : i < (applyCausalMask scores).length := by rw [hmasklen]; exact hi
    rw [getD_map_of_lt _ _ [] [] hi']
    congr 1
    simp only [applyCausalMask]
    have hi'' : i < scores.length := by rw [hslen]; exact hi
    rw [getD_enum_map_of_lt _ _ [] [] hi'']
  have hrowlen : ∀ i, i < n → (scores.getD i []).length = n := by
    intro i hi
    rw [hscores, getD_map_range _ _ hi]
    simp
  refine ⟨hAlen, ?_, ?_⟩
  · intro i j hij
    by_cases hi : i < n
    · have hr := hrow i hi
      rw [hr]
      by_cases hj : j < n
      · apply softmaxMasked_getD_masked
        have hj' : j < (scores.getD i []).length := by rw [hrowlen i hi]; exact hj
        rw [maskRow_getElem _ i j hj']
        simp [hij]
      · apply List.getD_eq_default
        rw [softmaxMasked_length]
        simp only [List.length_map, List.enum_length]
        rw [hrowlen i hi]
        omega
    · have h1 : (computeHeadAttention nm embs Wq Wk Wv).weights.getD i [] = [] := by
        rw [List.getD_eq_getElem?_getD, List.getElem?_eq_none]
        · rfl
        · rw [hAlen]; omega
      rw [h1]
      simp
  · intro i hi
    have hr := hrow i hi
    constructor
    · rw [hr, softmaxMasked_length]
      simp only [List.length_map, List.enum_length]
      exact hrowlen i hi
    · rw [hr]
      apply softmaxMasked_sum_one nm hexp _ ((scores.getD i []).getD i 0)
      have hi' : i < (scores.getD i []).length := by rw [hrowlen i hi]; exact hi
      have := maskRow_getElem (scores.getD i []) i i hi'
      simp only [lt_irrefl, if_neg, gt_iff_lt] at this
      exact List.mem_iff_getElem?.mpr ⟨i, this⟩

theorem afterAttention_length (nm : Numerics) (embs : List (List ℚ)) (l : ℕ) :
    (runMultiHeadAttention nm embs l).afterAttention.length = embs.length := by
  simp [runMultiHeadAttention]

theorem afterFFN_length (nm : Numerics) (embs : List (List ℚ)) (l : ℕ) :
    (runFFN nm embs l).afterFFN.length = embs.length := by
  simp [runFFN]

theorem runLayersAux_length (nm : Numerics) (count l0 : ℕ) (embs : List (List ℚ)) :
    (runLayersAux nm count l0 embs).length = count := by
  induction count generalizing l0 embs with
  | zero => rfl
  | succ m ih => rw [runLayersAux]; simp [ih]

theorem mem_runLayersAux_attention (nm : Numerics) (count l0 : ℕ) (embs : List (List ℚ)) :
    ∀ lr ∈ runLayersAux nm count l0 embs,
      ∃ e : List (List ℚ), e.length = embs.length ∧
        lr.attention = runMultiHeadAttention nm e lr.layer := by
  induction count generalizing l0 embs with
  | zero => intro lr hlr; simp [runLayersAux] at hlr
  | succ m ih =>
    intro lr hlr
    rw [runLayersAux] at hlr
    rcases List.mem_cons.mp hlr with h | h
    · subst h
      exact ⟨embs, rfl, rfl⟩
    · obtain ⟨e, helen, hattn⟩ := ih (l0 + 1) _ lr h
      refine ⟨e, ?_, hattn⟩
      rw [helen, afterFFN_length, afterAttention_length]

theorem headResults_length (nm : Numerics) (embs : List (List ℚ)) (l : ℕ) :
    (runMultiHeadAttention nm embs l).headResults.length = numHeads := by
  simp [runMultiHeadAttention]

theorem mem_headResults (nm : Numerics) (embs : List (List ℚ)) (l : ℕ) :
    ∀ hr ∈ (runMultiHeadAttention nm embs l).headResults,
      ∃ Wq Wk Wv, hr = computeHeadAttention nm embs Wq Wk Wv := by
  intro hr hhr
  simp only [runMultiHeadAttention, List.mem_map] at hhr
  obtain ⟨h, _, rfl⟩ := hhr
  exact ⟨_, _, _, rfl⟩

theorem getEmbeddings_length (tokens : List Token) :
    (getEmbeddings tokens).length = tokens.length := by
  simp [getEmbeddings]

/-- Claim C1: for every input text whose tokenization is non-empty, every
attention weight matrix produced by `runAttentionDemo` (every layer, every
head) is causally masked — `A[i][j] = 0` for `j > i` — and each row's
visible entries (`j ≤ i`) sum to within `1e-6` of 1.  In the rational model
the row sums are exactly 1, hence within the tolerance. -/
theorem attention_weights_causal_row_stochastic (nm : Numerics)
    (hexp : ∀ x, 0 < nm.exp x) (text : String) (hne : tokenize text ≠ []) :
    ∃ res, runAttentionDemo nm text = some res ∧
      res.layerResults.length = numLayers ∧
      ∀ lr ∈ res.layerResults,
        lr.attention.headResults.length = numHeads ∧
        ∀ hr ∈ lr.attention.headResults,
          (∀ i j, i < j → (hr.weights.getD i []).getD j 0 = 0) ∧
          (∀ i, i < res.tokens.length →
            |(∑ j ∈ Finset.range (i + 1), (hr.weights.getD i []).getD j 0) - 1| <
              1 / 1000000) := by
  have htoks : (tokenize text).take 10 ≠ [] := by
    intro h
    rcases List.take_eq_nil_iff.mp h with h10 | hnil
    · omega
    · exact hne hnil
  refine ⟨⟨(tokenize text).take 10,
    runLayersAux nm numLayers 0 (getEmbeddings ((tokenize text).take 10))⟩, ?_, ?_, ?_⟩
  · simp only [runAttentionDemo]
    rw [if_neg htoks]
  · exact runLayersAux_length nm numLayers 0 _
  · intro lr hlr
    obtain ⟨e, helen, hattn⟩ := mem_runLayersAux_attention nm numLayers 0 _ lr hlr
    rw [hattn]
    refine ⟨headResults_length nm e lr.layer, ?_⟩
    intro hr hhr
    obtain ⟨Wq, Wk, Wv, rfl⟩ := mem_headResults nm e lr.layer hr hhr
    obtain ⟨hAlen, hzero, hrows⟩ := computeHeadAttention_weights_spec nm hexp e Wq Wk Wv
    refine ⟨hzero, ?_⟩
    intro i hi
    have hie : i < e.length := by
      rw [helen, getEmbeddings_length]
      exact hi
    obtain ⟨hrlen, hrsum⟩ := hrows i hie
    set row := (computeHeadAttention nm e Wq Wk Wv).weights.getD i [] with hrowdef
    have hfull : row.sum = ∑ j ∈ Finset.range row.length, row.getD j 0 :=
      list_sum_eq_sum_range_getD row
    have hsub : (∑ j ∈ Finset.range (i + 1), row.getD j 0) =
        ∑ j ∈ Finset.range row.length, row.getD j 0 := by
      apply Finset.sum_subset
      · apply Finset.range_subset.mpr
        rw [hrlen]
        omega
      · intro x _ hx
        have : i < x := by
          rcases Nat.lt_or_ge x (i + 1) with h | h
          · exact absurd (Finset.mem_range.mpr h) hx
          · omega
        exact hzero i x this
    rw [hsub, ← hfull, hrsum]
    norm_num

/-- A concrete instantiation of the abstract numeric functions, used by the
witnesses: every function is constantly 1, which satisfies the positivity
requirement placed on `exp`. -/
def nm0 : Numerics := ⟨fun _ => 1, fun _ => 1, fun _ => 1⟩

/-- Witness for claim C1 at the concrete input `"a"`. -/
theorem attention_weights_causal_row_stochastic_witness :
    (∀ x : ℚ, 0 < nm0.exp x) ∧ tokenize "a" ≠ [] ∧
    (∃ res, runAttentionDemo nm0 "a" = some res ∧
      res.layerResults.length = numLayers ∧
      ∀ lr ∈ res.layerResults,
        lr.attention.headResults.length = numHeads ∧
        ∀ hr ∈ lr.attention.headResults,
          (∀ i j, i < j → (hr.weights.getD i []).getD j 0 = 0) ∧
          (∀ i, i < res.tokens.length →
            |(∑ j ∈ Finset.range (i + 1), (hr.weights.getD i []).getD j 0) - 1| <
              1 / 1000000)) :=
  ⟨fun _ => one_pos, by decide,
    attention_weights_causal_row_stochastic nm0 (fun _ => one_pos) "a" (by decide)⟩

/-- Claim C3: layer weights come from seeds `layer*1000 + head*100 + offset`
(offsets 1/2/3 for the per-head Q/K/V projections; the per-layer matrices use
the head-independent offsets 400/500/600), so every run produces the same
tables, and `initWeights` is idempotent: a second call neither regenerates
nor replaces tables already built. -/
theorem initWeights_seeded_idempotent :
    (∀ w, initWeights (some w) = some w) ∧
    initWeights none = some buildWeights ∧
    (∀ l, l < numLayers → ∀ h, h < numHeads →
      ((buildWeights.getD l default).attention.Wq.getD h [] =
          randomMatrix embedDim headDim (l * 1000 + h * 100 + 1) ∧
        (buildWeights.getD l default).attention.Wk.getD h [] =
          randomMatrix embedDim headDim (l * 1000 + h * 100 + 2) ∧
        (buildWeights.getD l default).attention.Wv.getD h [] =
          randomMatrix embedDim headDim (l * 1000 + h * 100 + 3))) ∧
    (∀ l, l < numLayers →
      ((buildWeights.getD l default).attention.Wo =
          randomMatrix embedDim embedDim (l * 1000 + 400) ∧
        (buildWeights.getD l default).ffn.W1 =
          randomMatrix embedDim ffnDim (l * 1000 + 500) ∧
        (buildWeights.getD l default).ffn.W2 =
          randomMatrix ffnDim embedDim (l * 1000 + 600))) := by
  refine ⟨fun w => rfl, rfl, ?_, ?_⟩
  · intro l hl h hh
    rw [buildWeights, getD_map_range _ _ hl]
    simp only [mkLayerWeights]
    exact ⟨getD_map_range _ _ hh, getD_map_range _ _ hh, getD_map_range _ _ hh⟩
  · intro l hl
    rw [buildWeights, getD_map_range _ _ hl]
    exact ⟨rfl, rfl, rfl⟩

/-- Witness for claim C3 at layer 1, head 2. -/
theorem initWeights_seeded_idempotent_witness :
    (1 < numLayers ∧ 2 < numHeads) ∧
    (buildWeights.getD 1 default).attention.Wq.getD 2 [] =
      randomMatrix embedDim headDim (1 * 1000 + 2 * 100 + 1) :=
  ⟨⟨by decide, by decide⟩,
    (initWeights_seeded_idempotent.2.2.1 1 (by decide) 2 (by decide)).1⟩

/-- Claim C4: after generating 4 tokens the "without cache" K counter equals
`(1+2+3+4)*kvDim` and the "with cache" K counter equals `4*kvDim`; the
displayed savings percentage is `(withoutTotal - withTotal)/withoutTotal*100`
over the combined K+V totals; at each generation step (1-based index `n`,
i.e. `currentStep+1`) the with-cache counter grows by `kvDim` and the
without-cache counter by `n*kvDim`. -/
theorem kv_cache_counters :
    (generateNextToken (generateNextToken (generateNextToken
        (generateNextToken kvReset)))).withoutCache.kComputations =
      (1 + 2 + 3 + 4) * kvDim ∧
    (generateNextToken (generateNextToken (generateNextToken
        (generateNextToken kvReset)))).withCache.kComputations = 4 * kvDim ∧
    (∀ st : KVState,
      0 < st.withoutCache.kComputations + st.withoutCache.vComputations →
      savingsPercent st =
        (((st.withoutCache.kComputations + st.withoutCache.vComputations : ℕ) : ℚ) -
            ((st.withCache.kComputations + st.withCache.vComputations : ℕ) : ℚ)) /
          ((st.withoutCache.kComputations + st.withoutCache.vComputations : ℕ) : ℚ) *
          100) ∧
    (∀ st : KVState, st.currentStep < kvMaxTokens →
      (generateNextToken st).withCache.kComputations =
          st.withCache.kComputations + kvDim ∧
        (generateNextToken st).withoutCache.kComputations =
          st.withoutCache.kComputations + (st.currentStep + 1) * kvDim) := by
  refine ⟨by decide, by decide, ?_, ?_⟩
  · intro st h
    simp only [savingsPercent]
    rw [if_pos h]
  · intro st h
    have hneg : ¬st.currentStep ≥ kvMaxTokens := by omega
    unfold generateNextToken
    rw [if_neg hneg]
    exact ⟨rfl, rfl⟩

/-- Witness for claim C4: one generation step from the reset state. -/
theorem kv_cache_counters_witness :
    (0 < (generateNextToken kvReset).withoutCache.kComputations +
        (generateNextToken kvReset).withoutCache.vComputations ∧
      savingsPercent (generateNextToken kvReset) =
        ((((generateNextToken kvReset).withoutCache.kComputations +
              (generateNextToken kvReset).withoutCache.vComputations : ℕ) : ℚ) -
            (((generateNextToken kvReset).withCache.kComputations +
              (generateNextToken kvReset).withCache.vComputations : ℕ) : ℚ)) /
          (((generateNextToken kvReset).withoutCache.kComputations +
              (generateNextToken kvReset).withoutCache.vComputations : ℕ) : ℚ) * 100) ∧
    (kvReset.currentStep < kvMaxTokens ∧
      (generateNextToken kvReset).withCache.kComputations =
        kvReset.withCache.kComputations + kvDim ∧
      (generateNextToken kvReset).withoutCache.kComputations =
        kvReset.withoutCache.kComputations + (kvReset.currentStep + 1) * kvDim) :=
  ⟨⟨by decide, kv_cache_counters.2.2.1 (generateNextToken kvReset) (by decide)⟩,
    ⟨by decide, kv_cache_counters.2.2.2 kvReset (by decide)⟩⟩

/-- Claim C5: over the 10-step tour, `start()` resets the cursor to 0 and
shows step 0 (which highlights the `input` component); nine `next()` calls
reach step 9, the only step marked `isFinal`; a tenth `next()` completes the
tour, deactivating the overlay and clearing the diagram highlight; `prev()`
at step 0 is a no-op. -/
theorem tour_state_machine :
    TOUR_STEPS.length = 10 ∧
    (∀ st, tourStart st = ⟨0, true, true, true, some "input"⟩) ∧
    (tourNext^[9] (⟨0, true, true, true, some "input"⟩ : TourState)).currentStep = 9 ∧
    (TOUR_STEPS.getD 9 default).isFinal = true ∧
    (∀ i, i < 9 → (TOUR_STEPS.getD i default).isFinal = false) ∧
    tourNext (tourNext^[9] (⟨0, true, true, true, some "input"⟩ : TourState)) =
      ⟨9, false, false, false, none⟩ ∧
    (∀ st : TourState, st.currentStep = 0 → tourPrev st = st) := by
  refine ⟨rfl, fun st => rfl, by decide, by decide, by decide, by decide, ?_⟩
  intro st h
  unfold tourPrev
  rw [h]
  simp

/-- Witness for claim C5: the `prev()` no-op and `isFinal` flags at concrete
inputs. -/
theorem tour_state_machine_witness :
    ((⟨0, true, true, true, some "input"⟩ : TourState).currentStep = 0 ∧
      tourPrev ⟨0, true, true, true, some "input"⟩ =
        (⟨0, true, true, true, some "input"⟩ : TourState)) ∧
    (3 < 9 ∧ (TOUR_STEPS.getD 3 default).isFinal = false) :=
  ⟨⟨rfl, tour_state_machine.2.2.2.2.2.2 ⟨0, true, true, true, some "input"⟩ rfl⟩,
    ⟨by decide, tour_state_machine.2.2.2.2.1 3 (by decide)⟩⟩

/-- Claim C6: `runAttentionDemo` truncates to at most 10 tokens; an empty
tokenization yields `null` before any forward-pass computation; the UI
`run()` handler leaves the previously displayed results untouched on empty
input (whether the text trims to nothing or tokenizes to nothing). -/
theorem runAttentionDemo_truncates_and_aborts :
    (∀ nm text res, runAttentionDemo nm text = some res → res.tokens.length ≤ 10) ∧
    (∀ nm text, tokenize text = [] → runAttentionDemo nm text = none) ∧
    (∀ nm st, tokenize (jsTrim st.inputText) = [] →
      (uiRun nm st).displayed = st.displayed) ∧
    (∀ nm st, jsTrim st.inputText = "" → uiRun nm st = st) := by
  have habort : ∀ nm text, tokenize text = [] → runAttentionDemo nm text = none := by
    intro nm text h
    unfold runAttentionDemo
    rw [h]
    rfl
  refine ⟨?_, habort, ?_, ?_⟩
  · intro nm text res h
    unfold runAttentionDemo at h
    by_cases hc : (tokenize text).take 10 = []
    · rw [if_pos hc] at h
      exact absurd h (by simp)
    · rw [if_neg hc] at h
      obtain rfl := (Option.some.injEq _ _).mp h.symm
      simp [List.length_take]
  · intro nm st h
    unfold uiRun
    by_cases he : jsTrim st.inputText = ""
    · rw [if_pos he]
    · rw [if_neg he, habort nm _ h]
  · intro nm st h
    unfold uiRun
    rw [if_pos h]

/-- Witness for claim C6 at the concrete inputs `""` and a whitespace-only
UI state. -/
theorem runAttentionDemo_truncates_and_aborts_witness :
    (runAttentionDemo nm0 "" = some ⟨[], []⟩ → (⟨[], []⟩ : DemoResult).tokens.length ≤ 10) ∧
    (tokenize "" = [] ∧ runAttentionDemo nm0 "" = none) ∧
    (tokenize (jsTrim "  ") = [] ∧
      (uiRun nm0 ⟨"  ", none, none⟩).displayed =
        (⟨"  ", none, none⟩ : AttentionUIState).displayed) ∧
    (jsTrim "  " = "" ∧ uiRun nm0 ⟨"  ", none, none⟩ = ⟨"  ", none, none⟩) :=
  ⟨runAttentionDemo_truncates_and_aborts.1 nm0 "" ⟨[], []⟩,
    ⟨by decide, runAttentionDemo_truncates_and_aborts.2.1 nm0 "" (by decide)⟩,
    ⟨by decide, runAttentionDemo_truncates_and_aborts.2.2.1 nm0 ⟨"  ", none, none⟩ (by decide)⟩,
    ⟨by decide, runAttentionDemo_truncates_and_aborts.2.2.2 nm0 ⟨"  ", none, none⟩ (by decide)⟩⟩

/-- Claim C9: `toggleMOE` flips the MOE-mode flag, shows the MOE group while
hiding the FFN group (or vice versa), re-labels the toggle affordance, and
`renderArrows` draws no arrow adjacent to a component whose `hidden` flag is
set. -/
theorem toggleMOE_flips_and_swaps :
    (∀ st : ArchState, st.svg = true →
      ((archToggleMOE st).moeMode = !st.moeMode ∧
        ((archToggleMOE st).moeMode = true →
          (archToggleMOE st).ffnGroupHidden = true ∧
            (archToggleMOE st).moeGroupHidden = false ∧
            (archToggleMOE st).toggleText = "← FFN") ∧
        ((archToggleMOE st).moeMode = false →
          (archToggleMOE st).moeGroupHidden = true ∧
            (archToggleMOE st).ffnGroupHidden = false ∧
            (archToggleMOE st).toggleText = "→ MOE"))) ∧
    (∀ a ∈ archDrawnArrows, archHidden a.1 = false ∧ archHidden a.2 = false) := by
  constructor
  · intro st hsvg
    cases hm : st.moeMode <;>
      simp [archToggleMOE, archApplyMOEVisualState, hsvg, hm]
  · decide

/-- Witness for claim C9 at a concrete initialized state. -/
theorem toggleMOE_flips_and_swaps_witness :
    ((⟨true, none, none, false, false, true, "→ MOE", true⟩ : ArchState).svg = true) ∧
    ((archToggleMOE ⟨true, none, none, false, false, true, "→ MOE", true⟩).moeMode =
        !(⟨true, none, none, false, false, true, "→ MOE", true⟩ : ArchState).moeMode ∧
      ((archToggleMOE ⟨true, none, none, false, false, true, "→ MOE", true⟩).moeMode = true →
        (archToggleMOE ⟨true, none, none, false, false, true, "→ MOE", true⟩).ffnGroupHidden = true ∧
          (archToggleMOE ⟨true, none, none, false, false, true, "→ MOE", true⟩).moeGroupHidden = false ∧
          (archToggleMOE ⟨true, none, none, false, false, true, "→ MOE", true⟩).toggleText = "← FFN") ∧
      ((archToggleMOE ⟨true, none, none, false, false, true, "→ MOE", true⟩).moeMode = false →
        (archToggleMOE ⟨true, none, none, false, false, true, "→ MOE", true⟩).moeGroupHidden = true ∧
          (archToggleMOE ⟨true, none, none, false, false, true, "→ MOE", true⟩).ffnGroupHidden = false ∧
          (archToggleMOE ⟨true, none, none, false, false, true, "→ MOE", true⟩).toggleText = "→ MOE")) :=
  ⟨rfl, toggleMOE_flips_and_swaps.1 ⟨true, none, none, false, false, true, "→ MOE", true⟩ rfl⟩

/-- Claim C10: `getAttentionWeights` returns `null` when the result is absent
or the layer entry is missing; when the layer entry exists the head index is
dereferenced without a guard, so an out-of-range head index raises a
`TypeError` (modelled as `Except.error`) instead of returning `null` — the
head index in range is a precondition. -/
theorem getAttentionWeights_partial_access :
    (∀ l h, getAttentionWeights none l h = .ok none) ∧
    (∀ r l h, r.layerResults.length ≤ l → getAttentionWeights (some r) l h = .ok none) ∧
    (∀ r l h, l < r.layerResults.length →
      (r.layerResults.getD l default).attention.headResults.length ≤ h →
      getAttentionWeights (some r) l h = .error ()) ∧
    (∀ r l h, l < r.layerResults.length →
      h < (r.layerResults.getD l default).attention.headResults.length →
      getAttentionWeights (some r) l h =
        .ok (some (((r.layerResults.getD l default).attention.headResults.getD
          h default).weights))) := by
  have hget : ∀ (α : Type) (l : List α) (i : ℕ) (d : α), i < l.length →
      l[i]? = some (l.getD i d) := by
    intro α l i d hi
    rw [List.getElem?_eq_getElem hi, List.getD_eq_getElem?_getD,
      List.getElem?_eq_getElem hi]
    rfl
  have ered : ∀ (r : DemoResult) (l h : ℕ), getAttentionWeights (some r) l h =
      (match r.layerResults[l]? with
        | none => Except.ok none
        | some lr =>
          match lr.attention.headResults[h]? with
          | none => Except.error ()
          | some hr => Except.ok (some hr.weights)) := fun r l h => rfl
  refine ⟨fun l h => rfl, ?_, ?_, ?_⟩
  · intro r l h hlen
    have h1 : r.layerResults[l]? = none := List.getElem?_eq_none hlen
    rw [ered, h1]
  · intro r l h hl hh
    have h1 := hget _ r.layerResults l default hl
    have h2 : (r.layerResults.getD l default).attention.headResults[h]? = none :=
      List.getElem?_eq_none hh
    rw [ered, h1]
    show (match (r.layerResults.getD l default).attention.headResults[h]? with
      | none => Except.error ()
      | some hr => Except.ok (some hr.weights)) = Except.error ()
    rw [h2]
  · intro r l h hl hh
    have h1 := hget _ r.layerResults l default hl
    have h2 := hget _ (r.layerResults.getD l default).attention.headResults h default hh
    rw [ered, h1]
    show (match (r.layerResults.getD l default).attention.headResults[h]? with
      | none => Except.error ()
      | some hr => Except.ok (some hr.weights)) =
      Except.ok (some (((r.layerResults.getD l default).attention.headResults.getD
        h default).weights))
    rw [h2]

/-- Witness for claim C10: a result with one (degenerate) layer entry and no
head results errors for head 0 instead of returning `null`, and an empty
result list yields `null` for layer 0. -/
theorem getAttentionWeights_partial_access_witness :
    ((⟨[], []⟩ : DemoResult).layerResults.length ≤ 0 ∧
      getAttentionWeights (some ⟨[], []⟩) 0 0 = .ok none) ∧
    ((0 < (⟨[], [default]⟩ : DemoResult).layerResults.length ∧
        ((⟨[], [default]⟩ : DemoResult).layerResults.getD 0
          default).attention.headResults.length ≤ 0) ∧
      getAttentionWeights (some ⟨[], [default]⟩) 0 0 = .error ()) :=
  ⟨⟨by decide, getAttentionWeights_partial_access.2.1 ⟨[], []⟩ 0 0 (by decide)⟩,
    ⟨⟨by decide, by decide⟩,
      getAttentionWeights_partial_access.2.2.1 ⟨[], [default]⟩ 0 0 (by decide) (by decide)⟩⟩

theorem archApplyMOEVisualState_glow (st : ArchState) :
    (archApplyMOEVisualState st).glow = st.glow := by
  unfold archApplyMOEVisualState
  split
  · rfl
  · split <;> rfl

theorem archApplyMOEVisualState_currentHighlight (st : ArchState) :
    (archApplyMOEVisualState st).currentHighlight = st.currentHighlight := by
  unfold archApplyMOEVisualState
  split
  · rfl
  · split <;> rfl

/-- Counterexample to claim C7 as stated: on the inference diagram, with the
`logits` box highlighted and glowing, the resize handler's redraw leaves the
glow cleared — the highlight is not reapplied after the redraw. -/
theorem inference_resize_drops_highlight :
    infIsBox "logits" = true ∧
    (⟨true, some "logits", some "logits", true⟩ : InfState).glow = some "logits" ∧
    (infResize ⟨true, some "logits", some "logits", true⟩).glow = none := by
  exact ⟨rfl, rfl, rfl⟩

/-- Claim C7 (amended): the architecture and training diagram resize
handlers reapply an active highlight after their redraw; the inference
diagram's resize handler redraws without reapplying, leaving every box
unglowed (while retaining the stored key); no variant's highlight survives
`destroyDiagram`. -/
theorem highlight_resize_behavior :
    (∀ (st : ArchState) (k : String), st.svg = true → st.currentHighlight = some k →
      archIsBox k = true →
      (archResize st).glow = some k ∧ (archResize st).currentHighlight = some k) ∧
    (∀ (st : TrainState) (k : String), st.currentHighlight = some k →
      (lookupComp trainComponents k).isSome = true →
      (trainResize st).glow = some k ∧ (trainResize st).currentHighlight = some k) ∧
    (∀ st : InfState, (infResize st).glow = none ∧
      (infResize st).currentHighlight = st.currentHighlight) ∧
    (∀ st : ArchState,
      (archDestroy st).glow = none ∧ (archDestroy st).currentHighlight = none) ∧
    (∀ st : TrainState,
      (trainDestroy st).glow = none ∧ (trainDestroy st).currentHighlight = none) ∧
    (∀ st : InfState,
      (infDestroy st).glow = none ∧ (infDestroy st).currentHighlight = none) := by
  refine ⟨?_, ?_, fun st => ⟨rfl, rfl⟩, fun st => ⟨rfl, rfl⟩,
    fun st => ⟨rfl, rfl⟩, fun st => ⟨rfl, rfl⟩⟩
  · intro st k hsvg hch hbox
    have hsome : (lookupComp archComponents k).isSome = true := by
      unfold archIsBox at hbox
      cases h : lookupComp archComponents k with
      | none => rw [h] at hbox; exact absurd hbox (by simp)
      | some c => simp [h]
    unfold archResize
    rw [hch]
    simp [hsome, archApplyHighlight, hbox]
  · intro st k hch hsome
    unfold trainResize
    rw [hch]
    simp [hsome]

/-- Witness for the amended claim C7 at concrete architecture and training
states. -/
theorem highlight_resize_behavior_witness :
    ((⟨true, some "attention", some "attention", false, false, true, "→ MOE", true⟩ :
        ArchState).svg = true ∧
      (⟨true, some "attention", some "attention", false, false, true, "→ MOE", true⟩ :
        ArchState).currentHighlight = some "attention" ∧
      archIsBox "attention" = true ∧
      (archResize ⟨true, some "attention", some "attention", false, false, true,
        "→ MOE", true⟩).glow = some "attention" ∧
      (archResize ⟨true, some "attention", some "attention", false, false, true,
        "→ MOE", true⟩).currentHighlight = some "attention") ∧
    ((⟨true, some "sft", some "sft", true⟩ : TrainState).currentHighlight = some "sft" ∧
      (lookupComp trainComponents "sft").isSome = true ∧
      (trainResize ⟨true, some "sft", some "sft", true⟩).glow = some "sft" ∧
      (trainResize ⟨true, some "sft", some "sft", true⟩).currentHighlight = some "sft") :=
  ⟨⟨rfl, rfl, rfl,
      highlight_resize_behavior.1
        ⟨true, some "attention", some "attention", false, false, true, "→ MOE", true⟩
        "attention" rfl rfl rfl⟩,
    ⟨rfl, rfl,
      highlight_resize_behavior.2.1 ⟨true, some "sft", some "sft", true⟩ "sft" rfl rfl⟩⟩

/-- Counterexample to claim C8 as stated: with the `input` box highlighted
and glowing, `highlightComponent("bogus")` (an unknown key) removes the
glow from `input` — a visible change to the currently highlighted
component — before discovering the key is unknown. -/
theorem archHighlight_unknown_not_invisible :
    lookupComp archComponents "bogus" = none ∧
    (⟨true, some "input", some "input", false, false, true, "→ MOE", true⟩ :
      ArchState).glow = some "input" ∧
    (archHighlight ⟨true, some "input", some "input", false, false, true, "→ MOE", true⟩
        "bogus").map ArchState.glow = .ok none := by
  exact ⟨rfl, rfl, rfl⟩

/-- Claim C8 (amended): on an initialized diagram, `highlightComponent` with
a key not in the component set raises no error and applies no new visual
emphasis, but it removes the visual emphasis of any currently highlighted
component and records the unknown key as the current highlight. -/
theorem archHighlight_unknown_silent :
    ∀ (st : ArchState) (key : String), st.svg = true →
      lookupComp archComponents key = none →
      archHighlight st key = .ok { st with
        currentHighlight := some key
        glow := match st.currentHighlight with
          | some prev =>
            if (lookupComp archComponents prev).isSome && (st.glow == some prev)
            then none else st.glow
          | none => st.glow } := by
  intro st key hsvg hk
  unfold archHighlight
  cases hch : st.currentHighlight with
  | none => simp [hk]
  | some prev =>
    by_cases hp : (lookupComp archComponents prev).isSome
    · simp [hsvg, hk, hp]
    · simp only [Bool.not_eq_true] at hp
      simp [hsvg, hk, hp]

/-- Witness for the amended claim C8 at a concrete state with an active
highlight. -/
theorem archHighlight_unknown_silent_witness :
    (⟨true, some "ffn", some "ffn", false, false, true, "→ MOE", true⟩ :
        ArchState).svg = true ∧
    lookupComp archComponents "nope" = none ∧
    archHighlight ⟨true, some "ffn", some "ffn", false, false, true, "→ MOE", true⟩
        "nope" =
      .ok { (⟨true, some "ffn", some "ffn", false, false, true, "→ MOE", true⟩ :
          ArchState) with
        currentHighlight := some "nope"
        glow := match (⟨true, some "ffn", some "ffn", false, false, true, "→ MOE",
            true⟩ : ArchState).currentHighlight with
          | some prev =>
            if (lookupComp archComponents prev).isSome &&
                ((⟨true, some "ffn", some "ffn", false, false, true, "→ MOE", true⟩ :
                  ArchState).glow == some prev)
            then none
            else (⟨true, some "ffn", some "ffn", false, false, true, "→ MOE", true⟩ :
              ArchState).glow
          | none => (⟨true, some "ffn", some "ffn", false, false, true, "→ MOE", true⟩ :
              ArchState).glow } :=
  ⟨rfl, rfl,
    archHighlight_unknown_silent
      ⟨true, some "ffn", some "ffn", false, false, true, "→ MOE", true⟩ "nope" rfl rfl⟩

theorem randomMatrix_headD_length (r c s : ℕ) (hr : 0 < r) :
    ((randomMatrix r c s).headD []).length = c := by
  unfold randomMatrix
  cases r with
  | zero => omega
  | succ m =>
    rw [List.range_succ_eq_map]
    simp

theorem transposeMat_length (m : List (List ℚ)) :
    (transposeMat m).length = (m.headD []).length := by
  simp [transposeMat]

theorem matvec_length (m : List (List ℚ)) (v : List ℚ) :
    (matvec m v).length = m.length := by
  simp [matvec]

theorem buildWeights_Wq (l h : ℕ) (hl : l < numLayers) (hh : h < numHeads) :
    (buildWeights.getD l default).attention.Wq.getD h [] =
      randomMatrix embedDim headDim (l * 1000 + h * 100 + 1) := by
  rw [buildWeights, getD_map_range _ _ hl]
  simp only [mkLayerWeights]
  exact getD_map_range _ _ hh

theorem buildWeights_Wk (l h : ℕ) (hl : l < numLayers) (hh : h < numHeads) :
    (buildWeights.getD l default).attention.Wk.getD h [] =
      randomMatrix embedDim headDim (l * 1000 + h * 100 + 2) := by
  rw [buildWeights, getD_map_range _ _ hl]
  simp only [mkLayerWeights]
  exact getD_map_range _ _ hh

theorem runLayersAux_head_input (nm : Numerics) (count l0 : ℕ) (e : List (List ℚ))
    (h : 0 < count) :
    ((runLayersAux nm count l0 e).getD 0 default).inputEmbeddings = e := by
  cases count with
  | zero => omega
  | succ m => rw [runLayersAux]; rfl

theorem runLayersAux_chain (nm : Numerics) :
    ∀ (count l0 : ℕ) (embs : List (List ℚ)) (i : ℕ), i + 1 < count →
      ((runLayersAux nm count l0 embs).getD i default).outputEmbeddings =
      ((runLayersAux nm count l0 embs).getD (i + 1) default).inputEmbeddings := by
  intro count
  induction count with
  | zero => intro l0 embs i h; omega
  | succ m ih =>
    intro l0 embs i h
    rw [runLayersAux]
    cases i with
    | zero =>
      have hm : 0 < m := by omega
      rw [List.getD_cons_zero, List.getD_cons_succ]
      exact (runLayersAux_head_input nm m (l0 + 1) _ hm).symm
    | succ j =>
      rw [List.getD_cons_succ, List.getD_cons_succ]
      exact ih (l0 + 1) _ j (by omega)

theorem runLayersAux_getD_struct (nm : Numerics) :
    ∀ (count l0 : ℕ) (embs : List (List ℚ)) (i : ℕ), i < count →
      ∃ e, ((runLayersAux nm count l0 embs).getD i default =
        { layer := l0 + i
          inputEmbeddings := e
          attention := runMultiHeadAttention nm e (l0 + i)
          ffn := runFFN nm (runMultiHeadAttention nm e (l0 + i)).afterAttention (l0 + i)
          outputEmbeddings :=
            (runFFN nm (runMultiHeadAttention nm e (l0 + i)).afterAttention
              (l0 + i)).afterFFN }) ∧ e.length = embs.length := by
  intro count
  induction count with
  | zero => intro l0 embs i h; omega
  | succ m ih =>
    intro l0 embs i h
    rw [runLayersAux]
    cases i with
    | zero =>
      refine ⟨embs, ?_, rfl⟩
      rw [List.getD_cons_zero, Nat.add_zero]
    | succ j =>
      rw [List.getD_cons_succ]
      obtain ⟨e, hrec, hlen⟩ := ih (l0 + 1) _ j (by omega)
      refine ⟨e, ?_, ?_⟩
      · rw [hrec]
        have harith : l0 + 1 + j = l0 + (j + 1) := by omega
        rw [harith]
      · rw [hlen, afterFFN_length, afterAttention_length]

theorem headResults_getD (nm : Numerics) (embs : List (List ℚ)) (l h : ℕ)
    (hh : h < numHeads) :
    (runMultiHeadAttention nm embs l).headResults.getD h default =
      computeHeadAttention nm embs
        ((buildWeights.getD l default).attention.Wq.getD h [])
        ((buildWeights.getD l default).attention.Wk.getD h [])
        ((buildWeights.getD l default).attention.Wv.getD h []) := by
  simp only [runMultiHeadAttention]
  exact getD_map_range _ _ hh

theorem weights_Wq_transpose_length (l h : ℕ) (hl : l < numLayers) (hh : h < numHeads) :
    (transposeMat ((buildWeights.getD l default).attention.Wq.getD h [])).length =
      headDim := by
  rw [buildWeights_Wq l h hl hh, transposeMat_length]
  exact randomMatrix_headD_length embedDim headDim _ (by decide)

theorem weights_Wk_transpose_length (l h : ℕ) (hl : l < numLayers) (hh : h < numHeads) :
    (transposeMat ((buildWeights.getD l default).attention.Wk.getD h [])).length =
      headDim := by
  rw [buildWeights_Wk l h hl hh, transposeMat_length]
  exact randomMatrix_headD_length embedDim headDim _ (by decide)

theorem computeHeadAttention_scores_spec (nm : Numerics) (embs : List (List ℚ))
    (Wq Wk Wv : List (List ℚ))
    (hq : (transposeMat Wq).length = headDim) (hk : (transposeMat Wk).length = headDim)
    (i j : ℕ) (hi : i < embs.length) (hj : j < embs.length) :
    ((computeHeadAttention nm embs Wq Wk Wv).scores.getD i []).getD j 0 =
      specScore (computeHeadAttention nm embs Wq Wk Wv).Q
        (computeHeadAttention nm embs Wq Wk Wv).K i j := by
  have hQlen : ((embs.map (fun e => matvec (transposeMat Wq) e)).getD i []).length =
      headDim := by
    rw [getD_map_of_lt _ _ [] [] hi, matvec_length, hq]
  have hKlen : ((embs.map (fun e => matvec (transposeMat Wk) e)).getD j []).length =
      headDim := by
    rw [getD_map_of_lt _ _ [] [] hj, matvec_length, hk]
  simp only [computeHeadAttention]
  rw [getD_map_range _ _ hi, getD_map_range _ _ hj]
  unfold specScore sqrtHeadDim
  rw [← hQlen]
  rw [sum_range_mul_getD _ _ (by rw [hQlen, hKlen])]

theorem computeHeadAttention_output_spec (nm : Numerics) (embs : List (List ℚ))
    (Wq Wk Wv : List (List ℚ)) (i : ℕ) (hi : i < embs.length) :
    (computeHeadAttention nm embs Wq Wk Wv).output.getD i [] =
      specHeadOutput (computeHeadAttention nm embs Wq Wk Wv).weights
        (computeHeadAttention nm embs Wq Wk Wv).V embs.length i := by
  simp only [computeHeadAttention]
  rw [getD_map_range _ _ hi, foldl_accum]
  rfl

theorem runMultiHeadAttention_afterAttention_spec (nm : Numerics)
    (embs : List (List ℚ)) (l i : ℕ) (hi : i < embs.length) :
    (runMultiHeadAttention nm embs l).afterAttention.getD i [] =
      layerNorm nm (vadd (embs.getD i [])
        ((runMultiHeadAttention nm embs l).attentionOutput.getD i [])) := by
  simp only [runMultiHeadAttention]
  rw [getD_enum_map_of_lt _ _ [] [] hi]

theorem runFFN_output_spec (nm : Numerics) (embs : List (List ℚ)) (l i : ℕ)
    (hi : i < embs.length) :
    (runFFN nm embs l).ffnOutput.getD i [] =
      matvec (transposeMat ((buildWeights.getD l default).ffn.W2))
        (geluVec nm (matvec (transposeMat ((buildWeights.getD l default).ffn.W1))
          (embs.getD i []))) := by
  simp only [runFFN]
  rw [getD_map_of_lt _ _ [] [] hi]

theorem runFFN_afterFFN_spec (nm : Numerics) (embs : List (List ℚ)) (l i : ℕ)
    (hi : i < embs.length) :
    (runFFN nm embs l).afterFFN.getD i [] =
      layerNorm nm (vadd (embs.getD i [])
        ((runFFN nm embs l).ffnOutput.getD i [])) := by
  simp only [runFFN]
  rw [getD_enum_map_of_lt _ _ [] [] hi]

/-- Claim C2: the forward pass follows the specified architecture.  Per head:
raw scores are `(Q[i]·K[j])/sqrt(headDim)` with `Q`/`K`/`V` the projections
of the layer's input embeddings, the causal mask and row-wise softmax yield
the attention weights, and the head output is `Σ_j A[i][j]·V[j]`.  Per
layer: the heads' outputs are concatenated per token, projected through
`Wo`, residual-added to the layer input and layer-normed; the feed-forward
sublayer is a two-layer MLP with GELU between and 4x expansion
(`ffnDim = 4·embedDim`) followed by residual-add and layer-norm; and layer
`L`'s output embeddings are exactly layer `L+1`'s input embeddings. -/
theorem forward_pass_architecture (nm : Numerics) (text : String)
    (hne : tokenize text ≠ []) :
    sqrtHeadDim * sqrtHeadDim = (headDim : ℚ) ∧
    ffnDim = 4 * embedDim ∧
    (∀ (embs : List (List ℚ)) (l h : ℕ), l < numLayers → h < numHeads →
      (runMultiHeadAttention nm embs l).headResults.getD h default =
        computeHeadAttention nm embs
          ((buildWeights.getD l default).attention.Wq.getD h [])
          ((buildWeights.getD l default).attention.Wk.getD h [])
          ((buildWeights.getD l default).attention.Wv.getD h [])) ∧
    (∀ (embs : List (List ℚ)) (Wq Wk Wv : List (List ℚ)),
      (computeHeadAttention nm embs Wq Wk Wv).Q =
          embs.map (fun e => matvec (transposeMat Wq) e) ∧
        (computeHeadAttention nm embs Wq Wk Wv).K =
          embs.map (fun e => matvec (transposeMat Wk) e) ∧
        (computeHeadAttention nm embs Wq Wk Wv).V =
          embs.map (fun e => matvec (transposeMat Wv) e) ∧
        (computeHeadAttention nm embs Wq Wk Wv).weights =
          (applyCausalMask (computeHeadAttention nm embs Wq Wk Wv).scores).map
            (fun row => softmaxMasked nm row)) ∧
    (∀ (embs : List (List ℚ)) (l h : ℕ), l < numLayers → h < numHeads →
      ∀ i j, i < embs.length → j < embs.length →
        (((runMultiHeadAttention nm embs l).headResults.getD h
            default).scores.getD i []).getD j 0 =
          specScore ((runMultiHeadAttention nm embs l).headResults.getD h default).Q
            ((runMultiHeadAttention nm embs l).headResults.getD h default).K i j) ∧
    (∀ (embs : List (List ℚ)) (Wq Wk Wv : List (List ℚ)) (i : ℕ), i < embs.length →
      (computeHeadAttention nm embs Wq Wk Wv).output.getD i [] =
        specHeadOutput (computeHeadAttention nm embs Wq Wk Wv).weights
          (computeHeadAttention nm embs Wq Wk Wv).V embs.length i) ∧
    (∀ (embs : List (List ℚ)) (l : ℕ),
      (runMultiHeadAttention nm embs l).attentionOutput =
        ((List.range embs.length).map (fun i =>
          ((runMultiHeadAttention nm embs l).headResults.map
            (fun hr => hr.output.getD i [])).flatten)).map
          (fun c => matvec (transposeMat
            ((buildWeights.getD l default).attention.Wo)) c)) ∧
    (∀ (embs : List (List ℚ)) (l i : ℕ), i < embs.length →
      (runMultiHeadAttention nm embs l).afterAttention.getD i [] =
        layerNorm nm (vadd (embs.getD i [])
          ((runMultiHeadAttention nm embs l).attentionOutput.getD i []))) ∧
    (∀ (embs : List (List ℚ)) (l i : ℕ), i < embs.length →
      (runFFN nm embs l).ffnOutput.getD i [] =
          matvec (transposeMat ((buildWeights.getD l default).ffn.W2))
            (geluVec nm (matvec (transposeMat ((buildWeights.getD l default).ffn.W1))
              (embs.getD i []))) ∧
        (runFFN nm embs l).afterFFN.getD i [] =
          layerNorm nm (vadd (embs.getD i [])
            ((runFFN nm embs l).ffnOutput.getD i []))) ∧
    (∃ res, runAttentionDemo nm text = some res ∧
      res.layerResults.length = numLayers ∧
      (∀ l, l < numLayers →
        (res.layerResults.getD l default).layer = l ∧
          (res.layerResults.getD l default).inputEmbeddings.length =
            res.tokens.length ∧
          (res.layerResults.getD l default).attention =
            runMultiHeadAttention nm
              (res.layerResults.getD l default).inputEmbeddings l ∧
          (res.layerResults.getD l default).ffn =
            runFFN nm (res.layerResults.getD l default).attention.afterAttention l ∧
          (res.layerResults.getD l default).outputEmbeddings =
            (res.layerResults.getD l default).ffn.afterFFN) ∧
      (∀ l, l + 1 < numLayers →
        (res.layerResults.getD l default).outputEmbeddings =
        (res.layerResults.getD (l + 1) default).inputEmbeddings)) := by
  refine ⟨by norm_num [sqrtHeadDim, headDim], by decide, ?_, ?_, ?_, ?_, ?_, ?_, ?_, ?_⟩
  · intro embs l h _ hh
    exact headResults_getD nm embs l h hh
  · intro embs Wq Wk Wv
    exact ⟨rfl, rfl, rfl, rfl⟩
  · intro embs l h hl hh i j hi hj
    rw [headResults_getD nm embs l h hh]
    exact computeHeadAttention_scores_spec nm embs _ _ _
      (weights_Wq_transpose_length l h hl hh)
      (weights_Wk_transpose_length l h hl hh) i j hi hj
  · intro embs Wq Wk Wv i hi
    exact computeHeadAttention_output_spec nm embs Wq Wk Wv i hi
  · intro embs l
    rfl
  · intro embs l i hi
    exact runMultiHeadAttention_afterAttention_spec nm embs l i hi
  · intro embs l i hi
    exact ⟨runFFN_output_spec nm embs l i hi, runFFN_afterFFN_spec nm embs l i hi⟩
  · have htoks : (tokenize text).take 10 ≠ [] := by
      intro h
      rcases List.take_eq_nil_iff.mp h with h10 | hnil
      · omega
      · exact hne hnil
    refine ⟨⟨(tokenize text).take 10,
      runLayersAux nm numLayers 0 (getEmbeddings ((tokenize text).take 10))⟩,
      ?_, runLayersAux_length nm numLayers 0 _, ?_, ?_⟩
    · simp only [runAttentionDemo]
      rw [if_neg htoks]
    · intro l hl
      obtain ⟨e, heq, hlen⟩ := runLayersAux_getD_struct nm numLayers 0 _ l hl
      rw [heq]
      rw [Nat.zero_add] at heq ⊢
      refine ⟨rfl, ?_, rfl, rfl, rfl⟩
      rw [hlen, getEmbeddings_length]
    · intro l hl
      exact runLayersAux_chain nm numLayers 0 _ l hl

/-- Witness for claim C2 at the concrete input `"a"`: the architecture facts
instantiated at layer 0, head 0, plus the layer-chaining fact on the actual
result. -/
theorem forward_pass_architecture_witness :
    tokenize "a" ≠ [] ∧
    (0 < numLayers ∧ 0 < numHeads) ∧
    (runMultiHeadAttention nm0 [] 0).headResults.getD 0 default =
      computeHeadAttention nm0 []
        ((buildWeights.getD 0 default).attention.Wq.getD 0 [])
        ((buildWeights.getD 0 default).attention.Wk.getD 0 [])
        ((buildWeights.getD 0 default).attention.Wv.getD 0 []) ∧
    (∃ res, runAttentionDemo nm0 "a" = some res ∧
      (res.layerResults.getD 0 default).outputEmbeddings =
        (res.layerResults.getD 1 default).inputEmbeddings) := by
  have h := forward_pass_architecture nm0 "a" (by decide)
  refine ⟨by decide, ⟨by decide, by decide⟩, ?_, ?_⟩
  · exact h.2.2.1 [] 0 0 (by decide) (by decide)
  · obtain ⟨res, hrun, _, _, hchain⟩ := h.2.2.2.2.2.2.2.2.2
    exact ⟨res, hrun, hchain 0 (by decide)⟩

end Langsplain
